import Mathlib

/-!
Verification of the CarbonCalc embodied-carbon calculator
(src/carbon_calc_app.py) against its specification.

The Python source is shallowly embedded as follows.

- A pandas row of the ICE reference table becomes the structure Row;
  the data frame ice_db becomes a List Row (row order preserved).
- A line-item dict with keys "ICE DB Name", "Qty", "EC_per_unit",
  "Total_EC" becomes the structure Entry with fields iceDBName, qty,
  ecPerUnit, totalEC.
- Python floats become Rat: every arithmetic operation the claims touch
  is a single product or a sum written exactly as in the source, and the
  claims are about the exact algebraic relations the source computes.
- The Streamlit session state (st.session_state.adds / .omits) becomes
  the structure Session; mutating functions take a Session and return
  the new Session explicitly.
- A call to st.warning is modelled as returning the warning message
  (an Option String alongside the new state); an uncaught Python
  exception (IndexError from list.pop) is modelled as Option.none.
- json.dump / json.load round-trip the Python object structure exactly,
  so the saved blob is modelled as a small JSON value tree (JValue) and
  the textual layer of the json module is not modelled.
-/

/-- One row of the ICE reference table, as produced by load_ice_db:
the five columns used by the app. Field embodiedCarbon is the column
named Embodied Carbon (kg CO2e per declared unit). -/
structure Row where
  material : String
  subMaterial : String
  iceDBName : String
  unitsOfDeclaredUnit : String
  embodiedCarbon : Rat
deriving Repr, DecidableEq

/-- A line-item entry dict as built by add_item:
keys "ICE DB Name", "Qty", "EC_per_unit", "Total_EC". -/
structure Entry where
  iceDBName : String
  qty : Rat
  ecPerUnit : Rat
  totalEC : Rat
deriving Repr, DecidableEq

/-- The session state: st.session_state.adds and st.session_state.omits,
both initialized to the empty list. -/
structure Session where
  adds : List Entry
  omits : List Entry
deriving Repr, DecidableEq

/-- Source lines 30-34. update_totals sums Total_EC over both lists
(Python sum is a left fold starting from 0) and returns
(total_add, total_omit, net_change). It reads the session and returns
a triple; it does not produce a new session, so it has no side effects. -/
def update_totals (s : Session) : Rat × Rat × Rat :=
  let total_add := s.adds.foldl (fun acc item => acc + item.totalEC) 0
  let total_omit := s.omits.foldl (fun acc item => acc + item.totalEC) 0
  (total_add, total_omit, total_add - total_omit)

/-- Source lines 55-67. add_item filters the table by ICE DB Name;
an empty match issues a warning (returned here as the second component)
and leaves the session unchanged; otherwise row = match.iloc[0] is the
head of the filtered rows, total_ec = ec_per_unit * qty, and the entry
is appended to adds when list_type equals "Add", else to omits. -/
def add_item (db : List Row) (list_type ice_name : String) (qty : Rat) (s : Session) :
    Session × Option String :=
  match (db.filter (fun r => r.iceDBName == ice_name)).head? with
  | none => (s, some (ice_name ++ " not found in ICE DB"))
  | some row =>
    let ec_per_unit := row.embodiedCarbon
    let total_ec := ec_per_unit * qty
    let entry : Entry := ⟨ice_name, qty, ec_per_unit, total_ec⟩
    if list_type == "Add" then ({ s with adds := s.adds ++ [entry] }, none)
    else ({ s with omits := s.omits ++ [entry] }, none)

/-- Python list.pop(i): indices are normalized by adding the length when
negative; a normalized index outside the list raises IndexError (none);
otherwise the element at the normalized index is removed. -/
def listPop {α : Type} (l : List α) (i : Int) : Option (List α) :=
  let j : Int := if i < 0 then i + l.length else i
  if 0 ≤ j ∧ j < l.length then some (l.eraseIdx j.toNat) else none

/-- Source lines 69-73. delete_item pops the given index from adds when
list_type equals "Add", else from omits; none models the uncaught
IndexError from list.pop. -/
def delete_item (list_type : String) (index : Int) (s : Session) : Option Session :=
  if list_type == "Add" then (listPop s.adds index).map (fun l => { s with adds := l })
  else (listPop s.omits index).map (fun l => { s with omits := l })

/-- The list delete_item operates on: adds when list_type equals "Add",
else omits. -/
def getList (list_type : String) (s : Session) : List Entry :=
  if list_type == "Add" then s.adds else s.omits

/-- Replace the list delete_item operates on, leaving the other list as is. -/
def setList (list_type : String) (s : Session) (l : List Entry) : Session :=
  if list_type == "Add" then { s with adds := l } else { s with omits := l }

/-- Source line 125: calc_qty = nr * length * width * depth * factor. -/
def calc_qty (nr length width depth factor : Rat) : Rat :=
  nr * length * width * depth * factor

/-- A reference-table row used by the concrete witnesses below. -/
def demoRow : Row := ⟨"Concrete", "Ready mix", "Concrete C30", "kg", 12/100⟩

/-- A second row sharing the same ICE DB Name as demoRow but with a
different carbon factor, used to witness duplicate-name behavior. -/
def demoRowDup : Row := ⟨"Concrete", "Ready mix", "Concrete C30", "kg", 999⟩

/- ------------------------------------------------------------------ -/
/- Helper lemmas -/
/- ------------------------------------------------------------------ -/

theorem head?_filter_of_exists {α : Type} {p : α → Bool} :
    ∀ (l : List α), (∃ r ∈ l, p r = true) → ∃ x, (l.filter p).head? = some x ∧ p x = true := by
  intro l h
  induction l with
  | nil => simp at h
  | cons a t ih =>
    by_cases ha : p a = true
    · exact ⟨a, by simp [List.filter_cons, ha], ha⟩
    · obtain ⟨r, hr, hpr⟩ := h
      rcases List.mem_cons.mp hr with rfl | hrt
      · exact absurd hpr ha
      · obtain ⟨x, hx, hpx⟩ := ih ⟨r, hrt, hpr⟩
        refine ⟨x, ?_, hpx⟩
        simpa [List.filter_cons, ha] using hx

theorem foldl_add_totalEC (l : List Entry) (a : Rat) :
    l.foldl (fun acc item => acc + item.totalEC) a = a + (l.map Entry.totalEC).sum := by
  induction l generalizing a with
  | nil => simp
  | cons x xs ih => simp [ih, add_assoc]

theorem listPop_out_of_range {α : Type} (l : List α) (i : Int)
    (h : i < -(l.length : Int) ∨ (l.length : Int) ≤ i) : listPop l i = none := by
  simp only [listPop]
  split_ifs <;> first | rfl | omega

theorem listPop_nonneg {α : Type} (l : List α) (i : Int)
    (h0 : 0 ≤ i) (h1 : i < (l.length : Int)) :
    listPop l i = some (l.take i.toNat ++ l.drop (i.toNat + 1)) := by
  simp only [listPop]
  rw [← List.eraseIdx_eq_take_drop_succ]
  split_ifs <;> first | rfl | omega

theorem listPop_neg {α : Type} (l : List α) (i : Int)
    (h0 : -(l.length : Int) ≤ i) (h1 : i < 0) :
    listPop l i = some (l.eraseIdx (i + l.length).toNat) := by
  simp only [listPop]
  split_ifs <;> first | rfl | omega

/- ------------------------------------------------------------------ -/
/- Claim theorems -/
/- ------------------------------------------------------------------ -/

/-- C1: for every numeric quantity (including zero and negative values)
and every referenceName present in the reference table, add_item appends
exactly one entry to the selected list whose Total_EC equals
quantity times the matched record's carbon per unit, the target list
grows by exactly one, the other list is untouched, and no warning is
issued; no quantity validation is performed. -/
theorem add_item_appends (db : List Row) (list_type ice_name : String) (qty : Rat)
    (s : Session) (h : ∃ r ∈ db, r.iceDBName = ice_name) :
    ∃ row, (db.filter (fun r => r.iceDBName == ice_name)).head? = some row ∧
      row.iceDBName = ice_name ∧
      (add_item db list_type ice_name qty s).2 = none ∧
      (list_type = "Add" →
        (add_item db list_type ice_name qty s).1 =
          { s with adds := s.adds ++ [⟨ice_name, qty, row.embodiedCarbon, qty * row.embodiedCarbon⟩] } ∧
        (add_item db list_type ice_name qty s).1.adds.length = s.adds.length + 1 ∧
        (add_item db list_type ice_name qty s).1.omits = s.omits) ∧
      (list_type ≠ "Add" →
        (add_item db list_type ice_name qty s).1 =
          { s with omits := s.omits ++ [⟨ice_name, qty, row.embodiedCarbon, qty * row.embodiedCarbon⟩] } ∧
        (add_item db list_type ice_name qty s).1.omits.length = s.omits.length + 1 ∧
        (add_item db list_type ice_name qty s).1.adds = s.adds) := by
  obtain ⟨row, hrow, hp⟩ :=
    @head?_filter_of_exists Row (fun r => r.iceDBName == ice_name) db (by simpa using h)
  have hmc : row.embodiedCarbon * qty = qty * row.embodiedCarbon := mul_comm _ _
  refine ⟨row, hrow, by simpa using hp, ?_, ?_, ?_⟩
  · unfold add_item
    rw [hrow]
    by_cases hlt : list_type = "Add" <;> simp [hlt]
  · intro hlt
    unfold add_item
    rw [hrow]
    simp [hlt, hmc]
  · intro hlt
    unfold add_item
    rw [hrow]
    simp [hlt, hmc]

theorem add_item_appends_witness :
    ∃ row, (([demoRow]).filter (fun r => r.iceDBName == "Concrete C30")).head? = some row ∧
      row.iceDBName = "Concrete C30" ∧
      (add_item [demoRow] "Add" "Concrete C30" (-5) ⟨[], []⟩).2 = none ∧
      ("Add" = "Add" →
        (add_item [demoRow] "Add" "Concrete C30" (-5) ⟨[], []⟩).1 =
          { (⟨[], []⟩ : Session) with adds := (⟨[], []⟩ : Session).adds ++
              [⟨"Concrete C30", -5, row.embodiedCarbon, -5 * row.embodiedCarbon⟩] } ∧
        (add_item [demoRow] "Add" "Concrete C30" (-5) ⟨[], []⟩).1.adds.length =
          (⟨[], []⟩ : Session).adds.length + 1 ∧
        (add_item [demoRow] "Add" "Concrete C30" (-5) ⟨[], []⟩).1.omits =
          (⟨[], []⟩ : Session).omits) ∧
      (("Add" : String) ≠ "Add" →
        (add_item [demoRow] "Add" "Concrete C30" (-5) ⟨[], []⟩).1 =
          { (⟨[], []⟩ : Session) with omits := (⟨[], []⟩ : Session).omits ++
              [⟨"Concrete C30", -5, row.embodiedCarbon, -5 * row.embodiedCarbon⟩] } ∧
        (add_item [demoRow] "Add" "Concrete C30" (-5) ⟨[], []⟩).1.omits.length =
          (⟨[], []⟩ : Session).omits.length + 1 ∧
        (add_item [demoRow] "Add" "Concrete C30" (-5) ⟨[], []⟩).1.adds =
          (⟨[], []⟩ : Session).adds) :=
  add_item_appends [demoRow] "Add" "Concrete C30" (-5) ⟨[], []⟩ (by decide)

/-- C2: update_totals returns the sum of Total_EC over adds, the sum
over omits, and their difference as net change; on the empty session all
three are zero; it is a pure function of the session. -/
theorem update_totals_spec (s : Session) :
    update_totals s =
      ((s.adds.map Entry.totalEC).sum, (s.omits.map Entry.totalEC).sum,
        (s.adds.map Entry.totalEC).sum - (s.omits.map Entry.totalEC).sum) ∧
    update_totals ⟨[], []⟩ = (0, 0, 0) := by
  constructor
  · simp only [update_totals]
    rw [foldl_add_totalEC, foldl_add_totalEC]
    simp
  · simp [update_totals]

/-- C4: for a referenceName absent from the table, add_item issues the
not-found warning and returns the session unchanged (both lists intact). -/
theorem add_item_not_found (db : List Row) (list_type ice_name : String) (qty : Rat)
    (s : Session) (h : ∀ r ∈ db, r.iceDBName ≠ ice_name) :
    add_item db list_type ice_name qty s = (s, some (ice_name ++ " not found in ICE DB")) := by
  have hf : db.filter (fun r => r.iceDBName == ice_name) = [] :=
    List.filter_eq_nil_iff.mpr (by simpa using h)
  unfold add_item
  rw [hf]
  rfl

theorem add_item_not_found_witness :
    add_item [demoRow] "Add" "Steel section" 3 ⟨[], []⟩ =
      (⟨[], []⟩, some ("Steel section" ++ " not found in ICE DB")) :=
  add_item_not_found [demoRow] "Add" "Steel section" 3 ⟨[], []⟩ (by decide)

/-- C8: calc_qty is the product of its five inputs for all rational
inputs, with no validation of sign or magnitude, and at
(2, 3, 4, 1/2, 1) it is exactly 12. -/
theorem calc_qty_spec (nr length width depth factor : Rat) :
    calc_qty nr length width depth factor = nr * length * width * depth * factor ∧
    calc_qty 2 3 4 (1/2) 1 = 12 :=
  ⟨rfl, by norm_num [calc_qty]⟩

/-- C9: for every list_type different from the exact string "Add" (not
only "Omit"), add_item with a name present in the table appends the new
entry to the omits list and leaves adds unchanged; no bucket value is
rejected. -/
theorem add_item_non_add_bucket (db : List Row) (list_type ice_name : String) (qty : Rat)
    (s : Session) (hlt : list_type ≠ "Add") (h : ∃ r ∈ db, r.iceDBName = ice_name) :
    ∃ row, (db.filter (fun r => r.iceDBName == ice_name)).head? = some row ∧
      (add_item db list_type ice_name qty s).1.omits =
        s.omits ++ [⟨ice_name, qty, row.embodiedCarbon, row.embodiedCarbon * qty⟩] ∧
      (add_item db list_type ice_name qty s).1.adds = s.adds ∧
      (add_item db list_type ice_name qty s).2 = none := by
  obtain ⟨row, hrow, hp⟩ :=
    @head?_filter_of_exists Row (fun r => r.iceDBName == ice_name) db (by simpa using h)
  refine ⟨row, hrow, ?_, ?_, ?_⟩ <;>
    (unfold add_item; rw [hrow]; simp [hlt])

theorem add_item_non_add_bucket_witness :
    ∃ row, (([demoRow]).filter (fun r => r.iceDBName == "Concrete C30")).head? = some row ∧
      (add_item [demoRow] "Remove" "Concrete C30" 2 ⟨[], []⟩).1.omits =
        (⟨[], []⟩ : Session).omits ++
          [⟨"Concrete C30", 2, row.embodiedCarbon, row.embodiedCarbon * 2⟩] ∧
      (add_item [demoRow] "Remove" "Concrete C30" 2 ⟨[], []⟩).1.adds =
        (⟨[], []⟩ : Session).adds ∧
      (add_item [demoRow] "Remove" "Concrete C30" 2 ⟨[], []⟩).2 = none :=
  add_item_non_add_bucket [demoRow] "Remove" "Concrete C30" 2 ⟨[], []⟩ (by decide) (by decide)

/-- C10: when the table contains several rows with the same ICE DB Name,
add_item does not fail and takes the carbon factor from the first
matching row in table order, whatever rows follow it. -/
theorem add_item_first_dup (db1 db2 : List Row) (r : Row) (list_type ice_name : String)
    (qty : Rat) (s : Session) (hr : r.iceDBName = ice_name)
    (hfirst : ∀ x ∈ db1, x.iceDBName ≠ ice_name) :
    (add_item (db1 ++ r :: db2) list_type ice_name qty s).2 = none ∧
    (add_item (db1 ++ r :: db2) list_type ice_name qty s).1 =
      (if list_type = "Add"
       then { s with adds := s.adds ++ [⟨ice_name, qty, r.embodiedCarbon, r.embodiedCarbon * qty⟩] }
       else { s with omits := s.omits ++ [⟨ice_name, qty, r.embodiedCarbon, r.embodiedCarbon * qty⟩] }) := by
  have hr' : (r.iceDBName == ice_name) = true := by simpa using hr
  have hf1 : db1.filter (fun x => x.iceDBName == ice_name) = [] :=
    List.filter_eq_nil_iff.mpr (by simpa using hfirst)
  have hfa : (db1 ++ r :: db2).filter (fun x => x.iceDBName == ice_name) =
      r :: db2.filter (fun x => x.iceDBName == ice_name) := by
    rw [List.filter_append, hf1]
    simp [List.filter_cons, hr']
  constructor <;>
  · unfold add_item
    rw [hfa]
    by_cases hlt : list_type = "Add" <;> simp [hlt]

theorem add_item_first_dup_witness :
    (add_item ([] ++ demoRow :: [demoRowDup]) "Add" "Concrete C30" 100 ⟨[], []⟩).2 = none ∧
    (add_item ([] ++ demoRow :: [demoRowDup]) "Add" "Concrete C30" 100 ⟨[], []⟩).1 =
      (if ("Add" : String) = "Add"
       then { (⟨[], []⟩ : Session) with adds := (⟨[], []⟩ : Session).adds ++
          [⟨"Concrete C30", 100, demoRow.embodiedCarbon, demoRow.embodiedCarbon * 100⟩] }
       else { (⟨[], []⟩ : Session) with omits := (⟨[], []⟩ : Session).omits ++
          [⟨"Concrete C30", 100, demoRow.embodiedCarbon, demoRow.embodiedCarbon * 100⟩] }) :=
  add_item_first_dup [] [demoRowDup] demoRow "Add" "Concrete C30" 100 ⟨[], []⟩
    (by decide) (by decide)

/-- C3 counterexample: the index -1 lies outside the interval from 0 to
the list length, yet delete_item does not fail there: Python list.pop
accepts negative indices, so the call succeeds and removes the last
element, changing the list. -/
theorem delete_item_claim_cex :
    ¬(0 ≤ (-1 : Int) ∧ (-1 : Int) < ((getList "Add" ⟨[⟨"X", 1, 1, 1⟩], []⟩).length : Int)) ∧
    delete_item "Add" (-1) ⟨[⟨"X", 1, 1, 1⟩], []⟩ = some ⟨[], []⟩ := by
  decide

/-- C3 amended: delete_item fails (the IndexError from list.pop
propagates, leaving the session unchanged) exactly when the index is
outside the interval from minus the list length to the list length; an
index in [0, length) removes exactly the element at that index, the
remaining elements keeping their relative order; an index in
[-length, 0) follows Python negative indexing and removes the element
at position length + index. -/
theorem delete_item_amended (list_type : String) (i : Int) (s : Session) :
    ((i < -((getList list_type s).length : Int) ∨ ((getList list_type s).length : Int) ≤ i) →
      delete_item list_type i s = none) ∧
    (0 ≤ i → i < ((getList list_type s).length : Int) →
      delete_item list_type i s =
        some (setList list_type s
          ((getList list_type s).take i.toNat ++ (getList list_type s).drop (i.toNat + 1)))) ∧
    (-((getList list_type s).length : Int) ≤ i → i < 0 →
      delete_item list_type i s =
        some (setList list_type s
          ((getList list_type s).eraseIdx (i + (getList list_type s).length).toNat))) := by
  have heq : delete_item list_type i s =
      (listPop (getList list_type s) i).map (fun l => setList list_type s l) := by
    unfold delete_item getList setList
    by_cases hb : (list_type == "Add") = true <;> simp [hb]
  refine ⟨fun h => ?_, fun h0 h1 => ?_, fun h0 h1 => ?_⟩ <;> rw [heq]
  · rw [listPop_out_of_range _ _ h]
    rfl
  · rw [listPop_nonneg _ _ h0 h1]
    rfl
  · rw [listPop_neg _ _ h0 h1]
    rfl

theorem delete_item_amended_witness :
    delete_item "Add" 3 ⟨[⟨"X", 1, 1, 1⟩], []⟩ = none ∧
    delete_item "Add" 0 ⟨[⟨"X", 1, 1, 1⟩], []⟩ = some ⟨[], []⟩ ∧
    delete_item "Omit" (-1) ⟨[], [⟨"X", 1, 1, 1⟩]⟩ = some ⟨[], []⟩ :=
  ⟨(delete_item_amended "Add" 3 ⟨[⟨"X", 1, 1, 1⟩], []⟩).1 (by decide),
   (delete_item_amended "Add" 0 ⟨[⟨"X", 1, 1, 1⟩], []⟩).2.1 (by decide) (by decide),
   (delete_item_amended "Omit" (-1) ⟨[], [⟨"X", 1, 1, 1⟩]⟩).2.2 (by decide) (by decide)⟩

/- ------------------------------------------------------------------ -/
/- Session persistence (save_calculation and load_calculation) -/
/- ------------------------------------------------------------------ -/

/-- A parsed JSON value, the shape json.load produces and json.dump
consumes. The textual JSON layer round-trips this structure exactly, so
saved blobs are modelled at this level. -/
inductive JValue where
  | str (s : String)
  | num (q : Rat)
  | arr (l : List JValue)
  | obj (fields : List (String × JValue))
deriving Repr

/-- The dict add_item builds for a line item, as it appears inside the
saved JSON blob: the four keys in the order the source writes them. -/
def entry_to_json (e : Entry) : JValue :=
  .obj [("ICE DB Name", .str e.iceDBName), ("Qty", .num e.qty),
        ("EC_per_unit", .num e.ecPerUnit), ("Total_EC", .num e.totalEC)]

/-- Source lines 36-46. save_calculation serializes
the dict with keys name, description, adds, omits; the two lists hold
the line-item dicts in session order. The file-system layer (one file
per name under SAVE_FOLDER) is the external blob store and is not
modelled. -/
def save_calculation (name description : String) (s : Session) : JValue :=
  .obj [("name", .str name), ("description", .str description),
        ("adds", .arr (s.adds.map entry_to_json)),
        ("omits", .arr (s.omits.map entry_to_json))]

/-- Python dict.get(key): some value when the key is present, none when
absent. Dicts produced by json.load have distinct keys, so the first
match is the match. -/
def dictGet (kvs : List (String × JValue)) (key : String) : Option JValue :=
  (kvs.find? (fun kv => kv.1 == key)).map (fun kv => kv.2)

/-- Reads a line-item dict back into the typed Entry. The Python source
assigns the raw parsed dicts to the session unexamined; since the typed
Session holds Entry values, the embedding inverts entry_to_json here,
and answers none exactly for dicts that do not carry the four line-item
fields with their expected shapes (values the typed Session cannot
represent; in Python such values would only surface later, at the first
field access). -/
def json_to_entry (j : JValue) : Option Entry :=
  match j with
  | .obj kvs =>
    match dictGet kvs "ICE DB Name", dictGet kvs "Qty",
          dictGet kvs "EC_per_unit", dictGet kvs "Total_EC" with
    | some (.str n), some (.num q), some (.num e), some (.num t) => some ⟨n, q, e, t⟩
    | _, _, _, _ => none
  | _ => none

/-- Reads each element of a parsed array into an Entry; none as soon as
one element is not a line-item dict. -/
def mapMOption (f : JValue → Option Entry) : List JValue → Option (List Entry)
  | [] => some []
  | x :: xs =>
    match f x, mapMOption f xs with
    | some y, some ys => some (y :: ys)
    | _, _ => none

/-- Reads the value of the adds or omits field back into a typed list:
a missing field (none) defaults to the empty list exactly as
data.get("adds", []) does in the source; a present field must be an
array of line-item dicts to be representable in the typed Session. -/
def decodeListField (v : Option JValue) : Option (List Entry) :=
  match v with
  | none => some []
  | some (.arr l) => mapMOption json_to_entry l
  | some _ => none

/-- Source lines 48-53. load_calculation reads the parsed blob,
replaces both session lists wholesale with data.get("adds", []) and
data.get("omits", []), and returns data.get("name", "") and
data.get("description", "") unchanged (kept as raw JSON values, since
the source never inspects them). none models dynamic values the typed
Session cannot hold, as described at json_to_entry. -/
def load_calculation (data : JValue) : Option (Session × JValue × JValue) :=
  match data with
  | .obj kvs =>
    match decodeListField (dictGet kvs "adds"), decodeListField (dictGet kvs "omits") with
    | some adds_, some omits_ =>
      some (⟨adds_, omits_⟩,
        (dictGet kvs "name").getD (.str ""), (dictGet kvs "description").getD (.str ""))
    | _, _ => none
  | _ => none

theorem json_to_entry_round (e : Entry) : json_to_entry (entry_to_json e) = some e := rfl

theorem mapMOption_round (l : List Entry) :
    mapMOption json_to_entry (l.map entry_to_json) = some l := by
  induction l with
  | nil => rfl
  | cons e t ih => simp [mapMOption, json_to_entry_round, ih]

/-- C5: loading the blob produced by saving a session reconstructs the
adds and omits lists exactly: same entries, same order, same values in
the ICE DB Name, Qty, EC_per_unit and Total_EC fields, for every
session including the empty one; name and description also survive. -/
theorem save_load_roundtrip (name description : String) (s : Session) :
    load_calculation (save_calculation name description s) =
      some (s, .str name, .str description) := by
  have h : load_calculation (save_calculation name description s) =
      match mapMOption json_to_entry (s.adds.map entry_to_json),
            mapMOption json_to_entry (s.omits.map entry_to_json) with
      | some adds_, some omits_ => some (⟨adds_, omits_⟩, .str name, .str description)
      | _, _ => none := rfl
  rw [h, mapMOption_round, mapMOption_round]

/-- C6: a parseable saved blob with a missing adds or omits field still
loads: the missing field defaults to the empty list, and a present
field replaces the corresponding session list wholesale; name and
description likewise default when absent. -/
theorem load_calculation_lenient (kvs : List (String × JValue)) (a o : List Entry)
    (ha : decodeListField (dictGet kvs "adds") = some a)
    (ho : decodeListField (dictGet kvs "omits") = some o) :
    (∃ n d, load_calculation (.obj kvs) = some (⟨a, o⟩, n, d)) ∧
    (dictGet kvs "adds" = none → a = []) ∧
    (dictGet kvs "omits" = none → o = []) := by
  refine ⟨⟨(dictGet kvs "name").getD (.str ""),
          (dictGet kvs "description").getD (.str ""), ?_⟩, ?_, ?_⟩
  · simp [load_calculation, ha, ho]
  · intro hnone
    rw [hnone] at ha
    simp [decodeListField] at ha
    exact ha
  · intro hnone
    rw [hnone] at ho
    simp [decodeListField] at ho
    exact ho

theorem load_calculation_lenient_witness :
    (∃ n d, load_calculation (.obj [("omits", .arr [entry_to_json ⟨"X", 2, 3, 6⟩])]) =
      some (⟨[], [⟨"X", 2, 3, 6⟩]⟩, n, d)) ∧
    (dictGet [("omits", .arr [entry_to_json ⟨"X", 2, 3, 6⟩])] "adds" = none →
      ([] : List Entry) = []) ∧
    (dictGet [("omits", .arr [entry_to_json ⟨"X", 2, 3, 6⟩])] "omits" = none →
      [(⟨"X", 2, 3, 6⟩ : Entry)] = []) :=
  load_calculation_lenient [("omits", .arr [entry_to_json ⟨"X", 2, 3, 6⟩])]
    [] [⟨"X", 2, 3, 6⟩] rfl rfl

/- ------------------------------------------------------------------ -/
/- Material filters (source lines 104-108) -/
/- ------------------------------------------------------------------ -/

/-- pandas Series.unique: the distinct values of a column in order of
first appearance. -/
def pyUnique : List String → List String
  | [] => []
  | x :: xs => x :: pyUnique (xs.filter (fun y => !(y == x)))
termination_by l => l.length
decreasing_by
  simp only [List.length_cons]
  exact Nat.lt_succ_of_le (List.length_filter_le _ xs)

/-- Python sorted on strings: ascending lexicographic order. -/
def pySorted (l : List String) : List String :=
  l.mergeSort (fun a b => decide (a ≤ b))

/-- Source line 104: sorted(ice_db[Material].unique()). -/
def materials (db : List Row) : List String :=
  pySorted (pyUnique (db.map (fun r => r.material)))

/-- Source line 105: sorted distinct Sub-material values of the rows
whose Material matches. -/
def sub_materials (db : List Row) (material : String) : List String :=
  pySorted (pyUnique ((db.filter (fun r => r.material == material)).map
    (fun r => r.subMaterial)))

/-- Source line 107: sorted distinct ICE DB Name values of the rows
matching both the Material and the Sub-material filters. -/
def ice_names (db : List Row) (material subMaterial : String) : List String :=
  pySorted (pyUnique ((db.filter
    (fun r => r.material == material && r.subMaterial == subMaterial)).map
    (fun r => r.iceDBName)))

theorem pyUnique_mem : ∀ (l : List String) (y : String), y ∈ pyUnique l ↔ y ∈ l := by
  intro l
  induction l using pyUnique.induct with
  | case1 => intro y; simp [pyUnique]
  | case2 x xs ih =>
    intro y
    simp only [pyUnique, List.mem_cons, ih, List.mem_filter, Bool.not_eq_true',
      beq_eq_false_iff_ne, ne_eq]
    constructor
    · rintro (rfl | ⟨h, _⟩)
      · exact Or.inl rfl
      · exact Or.inr h
    · rintro (rfl | h)
      · exact Or.inl rfl
      · by_cases hyx : y = x
        · exact Or.inl hyx
        · exact Or.inr ⟨h, hyx⟩

theorem pyUnique_nodup : ∀ (l : List String), (pyUnique l).Nodup := by
  intro l
  induction l using pyUnique.induct with
  | case1 => simp [pyUnique]
  | case2 x xs ih =>
    simp only [pyUnique]
    refine List.nodup_cons.mpr ⟨fun hx => ?_, ih⟩
    have hmem := (pyUnique_mem _ x).mp hx
    simp [List.mem_filter] at hmem

theorem pySorted_sorted (l : List String) : (pySorted l).Sorted (· ≤ ·) := by
  have htrans : ∀ a b c : String,
      decide (a ≤ b) = true → decide (b ≤ c) = true → decide (a ≤ c) = true := by
    intro a b c hab hbc
    simp only [decide_eq_true_eq] at hab hbc ⊢
    exact le_trans hab hbc
  have htotal : ∀ a b : String, (decide (a ≤ b) || decide (b ≤ a)) = true := by
    intro a b
    simpa [Bool.or_eq_true, decide_eq_true_eq] using le_total a b
  have h := @List.sorted_mergeSort String (fun a b => decide (a ≤ b)) htrans htotal l
  exact List.Pairwise.imp (fun hab => by simpa [decide_eq_true_eq] using hab) h

theorem pySorted_nodup (l : List String) (h : l.Nodup) : (pySorted l).Nodup :=
  (List.mergeSort_perm l (fun a b => decide (a ≤ b))).symm.nodup h

theorem pySorted_mem (l : List String) (y : String) : y ∈ pySorted l ↔ y ∈ l :=
  (List.mergeSort_perm l (fun a b => decide (a ≤ b))).mem_iff

/-- C7: each filter accessor returns the distinct values of its column,
under its filters, in ascending lexicographic order with no duplicates,
for every table state and every filter choice; the output is a pure
function of its inputs, hence stable. -/
theorem filters_sorted_distinct (db : List Row) (material subMaterial : String) :
    ((materials db).Sorted (· ≤ ·) ∧ (materials db).Nodup ∧
      (∀ x, x ∈ materials db ↔ x ∈ db.map Row.material)) ∧
    ((sub_materials db material).Sorted (· ≤ ·) ∧ (sub_materials db material).Nodup ∧
      (∀ x, x ∈ sub_materials db material ↔
        x ∈ (db.filter (fun r => r.material == material)).map Row.subMaterial)) ∧
    ((ice_names db material subMaterial).Sorted (· ≤ ·) ∧
      (ice_names db material subMaterial).Nodup ∧
      (∀ x, x ∈ ice_names db material subMaterial ↔
        x ∈ (db.filter (fun r => r.material == material && r.subMaterial == subMaterial)).map
          Row.iceDBName)) := by
  refine ⟨⟨?_, ?_, ?_⟩, ⟨?_, ?_, ?_⟩, ⟨?_, ?_, ?_⟩⟩ <;>
    first
      | exact pySorted_sorted _
      | exact pySorted_nodup _ (pyUnique_nodup _)
      | (intro x; exact (pySorted_mem _ x).trans (pyUnique_mem _ x))
